import Mathlib

/-!
Verification development for the ARIA autonomous research and investment
agent (TypeScript repository).  The definitions below are a shallow
embedding of the core modules named by the specification:

* RiskEngine (src/agent/src/risk-engine.ts, bundled in aria-agent.ts):
  policy data, the assess algorithm and the recordAction mutation.
  Monetary amounts are modelled as rationals; JavaScript Date.now() is
  modelled as an explicit integer parameter at each call site.
* Sentiment aggregation (src/merchant/src/providers/sentiment.ts):
  the weighted composite score, confidence, and label.
* Orchestrator execute phase and tool executor
  (src/agent/src/aria-agent.ts phaseExecute / run,
  src/agent/src/tool-executor.ts executeTool): exceptions are modelled
  with Except, the network outcome of a payment call with an explicit
  oracle value.
* Plan-phase JSON fallback (aria-agent.ts phasePlan): the JSON parser is
  modelled as an explicit function parameter returning Option.

String fields that the source builds by template interpolation are built
here with append on the ToString rendering of the same numbers; fields
that no claim observes (timestamps, durations, uuids, log console output)
are elided from the records.
-/

namespace Aria

/-- Risk tier, ordered low to critical (shared/types.ts RiskAssessment.riskLevel). -/
inductive RiskLevel
  | low
  | medium
  | high
  | critical
deriving DecidableEq, Repr

/-- Risk policy configuration (risk-engine.ts RiskPolicy). -/
structure RiskPolicy where
  dailyLimitUSD : ℚ
  perTransactionLimitUSD : ℚ
  maxAutoApproveUSD : ℚ
  allowedTokens : List String
  allowedChains : List String
  maxSlippageBps : ℚ
  requireApprovalAboveUSD : ℚ
  allowedCategories : List String
  cooldownMs : ℤ
deriving DecidableEq, Repr

/-- DEFAULT_POLICY from risk-engine.ts, with every environment variable at
its literal default value. -/
def defaultPolicy : RiskPolicy :=
  { dailyLimitUSD := 50
    perTransactionLimitUSD := 5
    maxAutoApproveUSD := 1
    allowedTokens := ["USDC", "ETH", "WETH", "AERO", "cbETH"]
    allowedChains := ["base", "base-sepolia", "ethereum", "arbitrum", "skale-nebula"]
    maxSlippageBps := 100
    requireApprovalAboveUSD := 5
    allowedCategories := ["market-data", "sentiment", "routing", "execution", "analytics"]
    cooldownMs := 1000 }

/-- Optional metadata passed to assess (risk-engine.ts assess signature). -/
structure AssessMetadata where
  category : Option String
  token : Option String
  chain : Option String
  slippageBps : Option ℚ
deriving DecidableEq, Repr

/-- A metadata record with every optional field absent. -/
def noMetadata : AssessMetadata := ⟨none, none, none, none⟩

/-- Budget impact snapshot inside a RiskAssessment. -/
structure BudgetImpact where
  before : ℚ
  after : ℚ
  percentUsed : ℚ
deriving DecidableEq, Repr

/-- Result of one risk assessment (shared/types.ts RiskAssessment). -/
structure RiskAssessment where
  action : String
  estimatedCostUSD : ℚ
  riskLevel : RiskLevel
  approved : Bool
  reason : String
  policyViolations : List String
  budgetImpact : BudgetImpact
deriving DecidableEq, Repr

/-- One entry of the RiskEngine private actionLog. -/
structure ActionLogEntry where
  timestamp : ℤ
  action : String
  costUSD : ℚ
  approved : Bool
deriving DecidableEq, Repr

/-- Mutable fields of a RiskEngine instance (dailySpent, lastActionTimestamp,
actionLog). -/
structure RiskEngineState where
  dailySpent : ℚ
  lastActionTimestamp : ℤ
  actionLog : List ActionLogEntry
deriving DecidableEq, Repr

namespace RiskEngine

/-- Fresh engine state as built by the RiskEngine constructor. -/
def initState : RiskEngineState := ⟨0, 0, []⟩

/-- Daily-limit check condition of assess. -/
def dailyHit (policy : RiskPolicy) (st : RiskEngineState) (cost : ℚ) : Bool :=
  decide (st.dailySpent + cost > policy.dailyLimitUSD)

/-- Per-transaction-limit check condition of assess. -/
def perTxHit (policy : RiskPolicy) (cost : ℚ) : Bool :=
  decide (cost > policy.perTransactionLimitUSD)

/-- Cooldown check condition of assess: elapsed time below the cooldown,
skipped when no prior action was recorded. -/
def cooldownHit (policy : RiskPolicy) (st : RiskEngineState) (now : ℤ) : Bool :=
  decide (now - st.lastActionTimestamp < policy.cooldownMs ∧ st.lastActionTimestamp > 0)

/-- Category allowlist check condition of assess. -/
def categoryHit (policy : RiskPolicy) (metadata : AssessMetadata) : Bool :=
  match metadata.category with
  | some c => !(policy.allowedCategories.contains c)
  | none => false

/-- Token allowlist check condition of assess. -/
def tokenHit (policy : RiskPolicy) (metadata : AssessMetadata) : Bool :=
  match metadata.token with
  | some t => !(policy.allowedTokens.contains t)
  | none => false

/-- Chain allowlist check condition of assess. -/
def chainHit (policy : RiskPolicy) (metadata : AssessMetadata) : Bool :=
  match metadata.chain with
  | some c => !(policy.allowedChains.contains c)
  | none => false

/-- Slippage check condition of assess.  The source guards on JavaScript
truthiness, so a slippage of 0 skips the check. -/
def slippageHit (policy : RiskPolicy) (metadata : AssessMetadata) : Bool :=
  match metadata.slippageBps with
  | some s => decide (s ≠ 0) && decide (s > policy.maxSlippageBps)
  | none => false

/-- The violations array of assess.  The source pushes one message per
failed check in a fixed order; the sequential pushes are represented as
the in-order concatenation of the per-check singleton lists. -/
def assessViolations (policy : RiskPolicy) (st : RiskEngineState) (now : ℤ)
    (cost : ℚ) (metadata : AssessMetadata) : List String :=
  (if dailyHit policy st cost then
    ["Daily limit exceeded: $" ++ toString st.dailySpent ++ " + $" ++
      toString cost ++ " > $" ++ toString policy.dailyLimitUSD] else []) ++
  (if perTxHit policy cost then
    ["Per-transaction limit exceeded: $" ++ toString cost ++ " > $" ++
      toString policy.perTransactionLimitUSD] else []) ++
  (if cooldownHit policy st now then
    ["Cooldown not met: " ++ toString (now - st.lastActionTimestamp) ++ "ms < " ++
      toString policy.cooldownMs ++ "ms"] else []) ++
  (if categoryHit policy metadata then
    ["Category not allowed: " ++ (metadata.category.getD "")] else []) ++
  (if tokenHit policy metadata then
    ["Token not allowed: " ++ (metadata.token.getD "")] else []) ++
  (if chainHit policy metadata then
    ["Chain not allowed: " ++ (metadata.chain.getD "")] else []) ++
  (if slippageHit policy metadata then
    ["Slippage too high: " ++ toString (metadata.slippageBps.getD 0) ++ "bps > " ++
      toString policy.maxSlippageBps ++ "bps"] else [])

/-- The riskLevel variable of assess after the sequence of checks.  The
source assigns the tier with plain reassignments: the per-transaction and
allowlist checks overwrite whatever tier was set before them, exactly as
written; only the slippage check and the final cost-based derivation are
conditional on the current tier. -/
def assessRiskLevel (policy : RiskPolicy) (st : RiskEngineState) (_now : ℤ)
    (cost : ℚ) (metadata : AssessMetadata) : RiskLevel :=
  let r1 : RiskLevel := if dailyHit policy st cost then .critical else .low
  let r2 : RiskLevel := if perTxHit policy cost then .high else r1
  let r3 : RiskLevel := if categoryHit policy metadata then .high else r2
  let r4 : RiskLevel := if tokenHit policy metadata then .high else r3
  let r5 : RiskLevel := if chainHit policy metadata then .high else r4
  let r6 : RiskLevel := if slippageHit policy metadata then
    (if r5 = .low then .medium else r5) else r5
  if r6 = .low then
    if cost > policy.requireApprovalAboveUSD then .high
    else if cost > policy.maxAutoApproveUSD then .medium
    else .low
  else r6

/-- RiskEngine.assess from risk-engine.ts, assembled from the helper
definitions above.  Date.now() is the explicit parameter now. -/
def assess (policy : RiskPolicy) (st : RiskEngineState) (now : ℤ)
    (action : String) (estimatedCostUSD : ℚ) (metadata : AssessMetadata) :
    RiskAssessment :=
  let violations := assessViolations policy st now estimatedCostUSD metadata
  let approved : Bool :=
    violations.isEmpty && decide (estimatedCostUSD ≤ policy.maxAutoApproveUSD)
  let needsApproval : Bool :=
    violations.isEmpty && decide (estimatedCostUSD > policy.maxAutoApproveUSD)
  let reason : String :=
    if violations.length > 0 then
      "Blocked: " ++ String.intercalate "; " violations
    else if approved then
      "Auto-approved: " ++ ("$" ++ toString estimatedCostUSD ++
        " within auto-approve limit ($" ++ toString policy.maxAutoApproveUSD ++ ")")
    else
      "Requires approval: " ++ ("$" ++ toString estimatedCostUSD ++
        " exceeds auto-approve limit ($" ++ toString policy.maxAutoApproveUSD ++ ")")
  { action := action
    estimatedCostUSD := estimatedCostUSD
    riskLevel := assessRiskLevel policy st now estimatedCostUSD metadata
    approved := approved || needsApproval
    reason := reason
    policyViolations := violations
    budgetImpact :=
      { before := st.dailySpent
        after := st.dailySpent + estimatedCostUSD
        percentUsed := (st.dailySpent + estimatedCostUSD) / policy.dailyLimitUSD * 100 } }

/-- RiskEngine.recordAction: updates dailySpent and lastActionTimestamp only
when approved is true, and always appends to the action log. -/
def recordAction (st : RiskEngineState) (now : ℤ) (action : String)
    (costUSD : ℚ) (approved : Bool) : RiskEngineState :=
  let st1 :=
    if approved then
      { st with dailySpent := st.dailySpent + costUSD, lastActionTimestamp := now }
    else st
  { st1 with actionLog := st1.actionLog ++ [⟨now, action, costUSD, approved⟩] }

end RiskEngine

/-! Sentiment aggregation (src/merchant/src/providers/sentiment.ts,
fetchSentiment composite block). -/

/-- One sentiment signal as consumed by the composite aggregation
(sentiment.ts SentimentSignal; the label and details fields are not read
by the aggregation). -/
structure SentimentSignal where
  source : String
  score : ℚ
  confidence : ℚ
deriving DecidableEq, Repr

/-- Composite label values (bullish / bearish / neutral). -/
inductive SentimentLabel
  | bullish
  | bearish
  | neutral
deriving DecidableEq, Repr

/-- The declarative weights table with JavaScript or-default lookup:
news 0.35, fear-greed-index 0.30, onchain 0.35, anything else 0.33.
The decimal constants are written with mkRat so that concrete instances
evaluate inside the kernel. -/
def sourceWeight (source : String) : ℚ :=
  if source = "news" then mkRat 35 100
  else if source = "fear-greed-index" then mkRat 30 100
  else if source = "onchain" then mkRat 35 100
  else mkRat 33 100

/-- The totalWeight accumulator of the aggregation loop. -/
def totalWeight (signals : List SentimentSignal) : ℚ :=
  signals.foldl (fun acc sig => acc + sourceWeight sig.source * sig.confidence) 0

/-- The weightedSum accumulator of the aggregation loop. -/
def weightedSum (signals : List SentimentSignal) : ℚ :=
  signals.foldl (fun acc sig => acc + sig.score * sourceWeight sig.source * sig.confidence) 0

/-- compositeScore: weightedSum over totalWeight, 0 when totalWeight is not
positive (the guarded branch of the source). -/
def compositeScore (signals : List SentimentSignal) : ℚ :=
  if totalWeight signals > 0 then weightedSum signals / totalWeight signals else 0

/-- compositeConfidence: totalWeight over the signal count, 0 when
totalWeight is not positive. -/
def compositeConfidence (signals : List SentimentSignal) : ℚ :=
  if totalWeight signals > 0 then totalWeight signals / (signals.length : ℚ) else 0

/-- The label thresholds applied to the composite score. -/
def compositeLabel (signals : List SentimentSignal) : SentimentLabel :=
  if compositeScore signals > mkRat 25 100 then .bullish
  else if compositeScore signals < -(mkRat 25 100) then .bearish
  else .neutral

/-! Orchestrator execute phase and tool executor
(aria-agent.ts phaseExecute and run, tool-executor.ts executeTool). -/

/-- Workflow step status (shared/types.ts WorkflowStep.status). -/
inductive StepStatus
  | pending
  | running
  | success
  | failed
  | skipped
deriving DecidableEq, Repr

/-- One recorded workflow step.  Fields no claim observes (uuid, timestamps,
duration, protocol, input, output, txHash) are elided. -/
structure WorkflowStep where
  stepType : String
  tool : Option String
  costUSD : Option ℚ
  status : StepStatus
  reasoning : Option String
  error : Option String
deriving DecidableEq, Repr

/-- A paid tool from the discovered registry (shared/types.ts PaidTool). -/
structure PaidTool where
  id : String
  name : String
  endpoint : String
  priceUSD : ℚ
  category : String
deriving DecidableEq, Repr

/-- A payment receipt as logged by the tool executor (shared/types.ts
PaymentReceipt; only the fields the invariants observe). -/
structure PaymentReceipt where
  tool : String
  amountUSD : ℚ
  status : String
deriving DecidableEq, Repr

/-- Run status (shared/types.ts WorkflowRun.status). -/
inductive RunStatus
  | running
  | completed
  | failed
deriving DecidableEq, Repr

/-- The orchestrator run record (shared/types.ts WorkflowRun; id, objective
and timestamps elided). -/
structure RunState where
  status : RunStatus
  steps : List WorkflowStep
  totalCostUSD : ℚ
  budgetUSD : ℚ
  budgetRemainingUSD : ℚ
deriving DecidableEq, Repr

/-- The mutable system state threaded through execution: the current run,
the audit logger receipt list, and the risk engine state. -/
structure ExecState where
  run : RunState
  receipts : List PaymentReceipt
  risk : RiskEngineState
deriving DecidableEq, Repr

/-- Oracle for the outcome of the payment fetch inside executeTool:
either the call succeeds (with the optional cost estimate captured by
onBeforePayment and the optional settlement success flag captured by
onAfterPayment), or it throws with a message. -/
inductive FetchOutcome
  | ok (costEstimate : Option ℚ) (settlementSuccess : Option Bool)
  | err (msg : String)
deriving DecidableEq, Repr

/-- ToolExecutor.executeTool (tool-executor.ts).  The unknown-tool throw
happens before the try block, so it escapes the function: modelled as
Except.error.  Risk rejection and a thrown payment call are caught and
returned as a failed step.  The returned triple is the recorded step,
the receipt logged for it (none when no payment happened), and the
updated risk engine state. -/
def executeTool (registry : List PaidTool) (policy : RiskPolicy)
    (risk : RiskEngineState) (now : ℤ) (toolId : String)
    (outcome : FetchOutcome) :
    Except String (WorkflowStep × Option PaymentReceipt × RiskEngineState) :=
  match registry.find? (fun t => t.id == toolId) with
  | none => Except.error ("Tool not found: " ++ toolId)
  | some tool =>
    let assessment := RiskEngine.assess policy risk now ("tool:" ++ toolId)
      tool.priceUSD ⟨some tool.category, none, none, none⟩
    if assessment.approved = false then
      Except.ok
        ({ stepType := "pay"
           tool := some toolId
           costUSD := some tool.priceUSD
           status := .failed
           reasoning := some assessment.reason
           error := some ("Risk policy violation: " ++
             String.intercalate "; " assessment.policyViolations) },
         none, risk)
    else
      match outcome with
      | .err msg =>
        Except.ok
          ({ stepType := "execute"
             tool := some toolId
             costUSD := some 0
             status := .failed
             reasoning := none
             error := some msg },
           none, risk)
      | .ok costEstimate settlementSuccess =>
        let actualCostUSD := costEstimate.getD tool.priceUSD
        let risk2 := RiskEngine.recordAction risk now ("tool:" ++ toolId) actualCostUSD true
        let receipt : PaymentReceipt :=
          { tool := toolId
            amountUSD := actualCostUSD
            status := if settlementSuccess = some false then "failed" else "settled" }
        Except.ok
          ({ stepType := "execute"
             tool := some toolId
             costUSD := some actualCostUSD
             status := .success
             reasoning := some ("Called " ++ tool.name ++ " for $" ++
               toString actualCostUSD ++ " — risk level assessed")
             error := none },
           some receipt, risk2)

/-- The failed step recorded when the payment call inside executeTool
throws: cost 0, the error message preserved. -/
def failedExecStep (toolId msg : String) : WorkflowStep :=
  { stepType := "execute", tool := some toolId, costUSD := some 0,
    status := StepStatus.failed, reasoning := none, error := some msg }

/-- One planned call of the execute phase: the tool id from the plan entry
together with the oracle outcome of its payment fetch and the clock value. -/
structure PlannedCall where
  tool : String
  outcome : FetchOutcome
  now : ℤ
deriving DecidableEq, Repr

/-- The per-step bookkeeping of phaseExecute (aria-agent.ts lines 535-537):
push the step, add its cost (or 0) to the run total, and recompute the
remaining budget as budget minus total. -/
def pushStep (es : ExecState) (step : WorkflowStep)
    (receipt : Option PaymentReceipt) (risk2 : RiskEngineState) : ExecState :=
  { run :=
      { es.run with
        steps := es.run.steps ++ [step]
        totalCostUSD := es.run.totalCostUSD + step.costUSD.getD 0
        budgetRemainingUSD := es.run.budgetUSD - (es.run.totalCostUSD + step.costUSD.getD 0) }
    receipts := es.receipts ++ receipt.toList
    risk := risk2 }

/-- AriaAgent.phaseExecute: iterate the plan in order, calling executeTool
for each entry.  An exception escaping executeTool escapes the phase; the
error value carries the state accumulated so far, mirroring the in-place
mutation of currentRun before the throw. -/
def phaseExecute (registry : List PaidTool) (policy : RiskPolicy) :
    ExecState → List PlannedCall → Except (String × ExecState) ExecState
  | es, [] => Except.ok es
  | es, call :: rest =>
    match executeTool registry policy es.risk call.now call.tool call.outcome with
    | Except.error msg => Except.error (msg, es)
    | Except.ok (step, receipt, risk2) =>
      phaseExecute registry policy (pushStep es step receipt risk2) rest

/-- The run-level catch around the phases (aria-agent.ts run, catch block
lines 353-359): an exception thrown by a phase marks the run failed and
returns it with whatever steps were recorded; otherwise the run continues
with the execute-phase result. -/
def executePhaseOutcome (registry : List PaidTool) (policy : RiskPolicy)
    (es : ExecState) (plan : List PlannedCall) : RunState :=
  match phaseExecute registry policy es plan with
  | Except.ok es2 => es2.run
  | Except.error (_, es2) => { es2.run with status := .failed }

/-- Sum of receipt amounts restricted to settled receipts. -/
def settledSum (receipts : List PaymentReceipt) : ℚ :=
  (receipts.filter (fun r => r.status == "settled")).foldl (fun s r => s + r.amountUSD) 0

/-- Sum of all receipt amounts, as computed by the finalization step
(aria-agent.ts line 337, reduce over logger.getReceipts()). -/
def receiptSum (receipts : List PaymentReceipt) : ℚ :=
  receipts.foldl (fun s r => s + r.amountUSD) 0

/-- Sum of the recorded step costs, each defaulted to 0 when absent. -/
def stepCostSum (steps : List WorkflowStep) : ℚ :=
  steps.foldl (fun s st => s + st.costUSD.getD 0) 0

/-- The successful-run finalization (aria-agent.ts lines 334-338): status
completed, total cost recomputed as the sum of all logged receipts, and
remaining budget as budget minus that total. -/
def finalizeCompleted (es : ExecState) : RunState :=
  { es.run with
    status := .completed
    totalCostUSD := receiptSum es.receipts
    budgetRemainingUSD := es.run.budgetUSD - receiptSum es.receipts }

/-! Plan phase JSON fallback (aria-agent.ts phasePlan, lines 420-443). -/

/-- One planned step of a parsed plan ({ tool, params, reasoning }; params
elided). -/
structure PlannedStep where
  tool : String
  reasoning : String
deriving DecidableEq, Repr

/-- The structured plan the planner response is parsed into. -/
structure Plan where
  plan : List PlannedStep
  estimatedCostUSD : ℚ
  reasoning : String
deriving DecidableEq, Repr

/-- ToolExecutor.estimateWorkflowCost: sum of registry prices of the given
tool ids, unknown ids contributing 0. -/
def estimateWorkflowCost (registry : List PaidTool) (toolIds : List String) : ℚ :=
  toolIds.foldl
    (fun sum id => sum + (((registry.find? (fun t => t.id == id)).map PaidTool.priceUSD).getD 0))
    0

/-- The JSON.parse try-catch of phasePlan: the parser is an explicit
function; on parse failure the plan degrades to an empty step list with
estimated cost 0 and the raw response text as the rationale. -/
def parsePlanResponse (parse : String → Option Plan) (response : String) : Plan :=
  match parse response with
  | some p => p
  | none => { plan := [], estimatedCostUSD := 0, reasoning := response }

/-- The estimated cost used downstream of the parse (aria-agent.ts line
427): the plan value, or - through JavaScript or-falsiness when that value
is 0 - the registry estimate over the planned tool ids. -/
def planEstimatedCost (registry : List PaidTool) (p : Plan) : ℚ :=
  if p.estimatedCostUSD = 0 then
    estimateWorkflowCost registry (p.plan.map PlannedStep.tool)
  else p.estimatedCostUSD

/-- AriaAgent.phasePlan reduced to its data flow: parse (or degrade) the
response, and record a plan step that is always marked success with the
plan rationale as the step reasoning. -/
def phasePlan (parse : String → Option Plan) (response : String) :
    Plan × WorkflowStep :=
  let plan := parsePlanResponse parse response
  (plan,
    { stepType := "reason"
      tool := none
      costUSD := some 0
      status := .success
      reasoning := some plan.reasoning
      error := none })

/-! Spend-event traces for the daily-limit invariant.  A trace interleaves
assess calls with recordAction calls exactly as the orchestrator does:
each event carries the clock values of its assess and recordAction calls
and the metadata passed to assess. -/

/-- One spend event: a recordAction call, optionally preceded by an assess
call of the same action and cost. -/
structure SpendEvent where
  action : String
  cost : ℚ
  metadata : AssessMetadata
  assessNow : ℤ
  recordNow : ℤ
  approved : Bool
deriving DecidableEq, Repr

/-- Apply one spend event to the engine state. -/
def applyEvent (st : RiskEngineState) (e : SpendEvent) : RiskEngineState :=
  RiskEngine.recordAction st e.recordNow e.action e.cost e.approved

/-- Replay a trace of spend events. -/
def runEvents (st : RiskEngineState) (events : List SpendEvent) : RiskEngineState :=
  events.foldl applyEvent st

/-- The discipline the orchestrator follows: recordAction is called with
approved = true only for spends whose assessment against the engine state
current at that moment reported no violations, at the assessed cost. -/
def EventsAssessed (policy : RiskPolicy) : RiskEngineState → List SpendEvent → Prop
  | _, [] => True
  | st, e :: rest =>
    (e.approved = true →
      (RiskEngine.assess policy st e.assessNow e.action e.cost e.metadata).policyViolations = []) ∧
    EventsAssessed policy (applyEvent st e) rest

/-! Concrete fixtures used to instantiate the theorems: a registry of three
one-dollar tools and a fresh ten-dollar run. -/

/-- A registry of three cheap tools in the allowed market-data category. -/
def demoRegistry : List PaidTool :=
  [⟨"a", "A", "/api/a", 1, "market-data"⟩,
   ⟨"b", "B", "/api/b", 1, "market-data"⟩,
   ⟨"c", "C", "/api/c", 1, "market-data"⟩]

/-- A fresh running run with a ten-dollar budget and no steps. -/
def demoRun : RunState := ⟨RunStatus.running, [], 0, 10, 10⟩

/-- A small signal list: fully confident bullish news, neutral on-chain. -/
def demoSignals : List SentimentSignal := [⟨"news", 1, 1⟩, ⟨"onchain", 0, 1⟩]

/-! Shared helper lemmas. -/

/-- Folding addition of a projection equals the initial value plus the sum
of the mapped list. -/
theorem foldl_add_map {α : Type} (f : α → ℚ) :
    ∀ (l : List α) (a : ℚ), l.foldl (fun acc x => acc + f x) a = a + (l.map f).sum := by
  intro l
  induction l with
  | nil => intro a; simp
  | cons x xs ih => intro a; simp [ih, add_assoc]

/-- The violations field of an assessment is the assessViolations list. -/
theorem assess_policyViolations (policy : RiskPolicy) (st : RiskEngineState)
    (now : ℤ) (action : String) (cost : ℚ) (metadata : AssessMetadata) :
    (RiskEngine.assess policy st now action cost metadata).policyViolations =
      RiskEngine.assessViolations policy st now cost metadata := rfl

/-- An empty violations list means every check condition was false. -/
theorem assessViolations_nil_iff (policy : RiskPolicy) (st : RiskEngineState)
    (now : ℤ) (cost : ℚ) (metadata : AssessMetadata) :
    RiskEngine.assessViolations policy st now cost metadata = [] ↔
      RiskEngine.dailyHit policy st cost = false ∧
      RiskEngine.perTxHit policy cost = false ∧
      RiskEngine.cooldownHit policy st now = false ∧
      RiskEngine.categoryHit policy metadata = false ∧
      RiskEngine.tokenHit policy metadata = false ∧
      RiskEngine.chainHit policy metadata = false ∧
      RiskEngine.slippageHit policy metadata = false := by
  simp only [RiskEngine.assessViolations, List.append_eq_nil]
  constructor
  · intro h
    refine ⟨?_, ?_, ?_, ?_, ?_, ?_, ?_⟩ <;>
      [skip; skip; skip; skip; skip; skip; skip] <;>
      by_contra hb <;> simp [Bool.not_eq_false] at hb <;> simp [hb] at h
  · intro ⟨h1, h2, h3, h4, h5, h6, h7⟩
    simp [h1, h2, h3, h4, h5, h6, h7]

/-- An assessment with an empty violation list passed the daily-limit
check. -/
theorem assess_nil_violations_daily (policy : RiskPolicy) (st : RiskEngineState)
    (now : ℤ) (action : String) (cost : ℚ) (metadata : AssessMetadata)
    (h : (RiskEngine.assess policy st now action cost metadata).policyViolations = []) :
    st.dailySpent + cost ≤ policy.dailyLimitUSD := by
  rw [assess_policyViolations, assessViolations_nil_iff] at h
  have hd := h.1
  simp only [RiskEngine.dailyHit, decide_eq_false_iff_not, not_lt] at hd
  exact hd

/-- Recording an approved action adds its cost to the cumulative spend. -/
theorem recordAction_spent_approved (st : RiskEngineState) (now : ℤ) (action : String)
    (cost : ℚ) :
    (RiskEngine.recordAction st now action cost true).dailySpent = st.dailySpent + cost := by
  simp [RiskEngine.recordAction]

/-- Recording a non-approved action leaves the cumulative spend unchanged. -/
theorem recordAction_spent_not_approved (st : RiskEngineState) (now : ℤ) (action : String)
    (cost : ℚ) :
    (RiskEngine.recordAction st now action cost false).dailySpent = st.dailySpent := by
  simp [RiskEngine.recordAction]

/-- Inductive form of the daily-limit invariant: from any state within the
limit, an assessed trace stays within the limit at every prefix. -/
theorem runEvents_spent_le (policy : RiskPolicy) (events : List SpendEvent) :
    ∀ st : RiskEngineState, st.dailySpent ≤ policy.dailyLimitUSD →
      EventsAssessed policy st events →
      ∀ n : ℕ, (runEvents st (events.take n)).dailySpent ≤ policy.dailyLimitUSD := by
  induction events with
  | nil =>
    intro st hst _ n
    simpa [runEvents] using hst
  | cons e rest ih =>
    intro st hst h n
    rw [EventsAssessed] at h
    obtain ⟨he, hrest⟩ := h
    cases n with
    | zero => simpa [runEvents] using hst
    | succ n =>
      have hnext : (applyEvent st e).dailySpent ≤ policy.dailyLimitUSD := by
        rcases Bool.eq_false_or_eq_true e.approved with hap | hap
        · rw [applyEvent, hap, recordAction_spent_approved]
          exact assess_nil_violations_daily policy st e.assessNow e.action e.cost e.metadata
            (he hap)
        · rw [applyEvent, hap, recordAction_spent_not_approved]
          exact hst
      have := ih (applyEvent st e) hnext hrest n
      simpa [runEvents] using this

/-- Every source-class weight is positive. -/
theorem sourceWeight_pos (source : String) : 0 < sourceWeight source := by
  unfold sourceWeight
  split
  · rw [show (mkRat 35 100 : ℚ) = 35/100 from by rw [Rat.mkRat_eq_div]; norm_num]; norm_num
  · split
    · rw [show (mkRat 30 100 : ℚ) = 30/100 from by rw [Rat.mkRat_eq_div]; norm_num]; norm_num
    · split
      · rw [show (mkRat 35 100 : ℚ) = 35/100 from by rw [Rat.mkRat_eq_div]; norm_num]; norm_num
      · rw [show (mkRat 33 100 : ℚ) = 33/100 from by rw [Rat.mkRat_eq_div]; norm_num]; norm_num

/-- The totalWeight accumulator equals the sum of the mapped weights. -/
theorem totalWeight_eq_sum (signals : List SentimentSignal) :
    totalWeight signals =
      (signals.map fun s => sourceWeight s.source * s.confidence).sum := by
  simpa using foldl_add_map (fun s => sourceWeight s.source * s.confidence) signals 0

/-- The weightedSum accumulator equals the sum of the mapped weighted scores. -/
theorem weightedSum_eq_sum (signals : List SentimentSignal) :
    weightedSum signals =
      (signals.map fun s => s.score * sourceWeight s.source * s.confidence).sum := by
  simpa using foldl_add_map (fun s => s.score * sourceWeight s.source * s.confidence) signals 0

/-- With nonnegative confidences the total weight is nonnegative. -/
theorem totalWeight_nonneg (signals : List SentimentSignal)
    (hconf : ∀ s ∈ signals, 0 ≤ s.confidence) : 0 ≤ totalWeight signals := by
  rw [totalWeight_eq_sum]
  apply List.sum_nonneg
  intro x hx
  rcases List.mem_map.mp hx with ⟨s, hs, rfl⟩
  exact mul_nonneg (le_of_lt (sourceWeight_pos s.source)) (hconf s hs)

/-- Appending one step adds its defaulted cost to the step-cost sum. -/
theorem stepCostSum_append (l : List WorkflowStep) (s : WorkflowStep) :
    stepCostSum (l ++ [s]) = stepCostSum l + s.costUSD.getD 0 := by
  simp [stepCostSum, foldl_add_map]

/-- One successful executeTool call advances phaseExecute by a pushStep. -/
theorem phaseExecute_cons_ok (registry : List PaidTool) (policy : RiskPolicy)
    (es : ExecState) (call : PlannedCall) (rest : List PlannedCall)
    (step : WorkflowStep) (rcpt : Option PaymentReceipt) (risk2 : RiskEngineState)
    (h : executeTool registry policy es.risk call.now call.tool call.outcome =
      Except.ok (step, rcpt, risk2)) :
    phaseExecute registry policy es (call :: rest) =
      phaseExecute registry policy (pushStep es step rcpt risk2) rest := by
  rw [phaseExecute, h]

/-- An executeTool exception aborts phaseExecute with the state so far. -/
theorem phaseExecute_cons_err (registry : List PaidTool) (policy : RiskPolicy)
    (es : ExecState) (call : PlannedCall) (rest : List PlannedCall) (msg : String)
    (h : executeTool registry policy es.risk call.now call.tool call.outcome =
      Except.error msg) :
    phaseExecute registry policy es (call :: rest) = Except.error (msg, es) := by
  rw [phaseExecute, h]

/-- The cost bookkeeping invariant of the execute phase: whenever the phase
completes without an exception, the run total equals the sum of the
recorded step costs, the remaining budget equals the budget minus that
total, and the budget ceiling and status are unchanged. -/
theorem phaseExecute_invariant (registry : List PaidTool) (policy : RiskPolicy)
    (plan : List PlannedCall) :
    ∀ es es' : ExecState,
      es.run.totalCostUSD = stepCostSum es.run.steps →
      es.run.budgetRemainingUSD = es.run.budgetUSD - es.run.totalCostUSD →
      phaseExecute registry policy es plan = Except.ok es' →
      (es'.run.totalCostUSD = stepCostSum es'.run.steps ∧
       es'.run.budgetRemainingUSD = es'.run.budgetUSD - es'.run.totalCostUSD ∧
       es'.run.budgetUSD = es.run.budgetUSD ∧
       es'.run.status = es.run.status) := by
  induction plan with
  | nil =>
    intro es es' h1 h2 hok
    rw [phaseExecute] at hok
    cases hok
    exact ⟨h1, h2, rfl, rfl⟩
  | cons c rest ih =>
    intro es es' h1 h2 hok
    rw [phaseExecute] at hok
    cases hex : executeTool registry policy es.risk c.now c.tool c.outcome with
    | error m =>
      rw [hex] at hok
      exact absurd hok (by simp)
    | ok out =>
      obtain ⟨step, rcpt, risk2⟩ := out
      rw [hex] at hok
      have h1p : (pushStep es step rcpt risk2).run.totalCostUSD =
          stepCostSum (pushStep es step rcpt risk2).run.steps := by
        simp [pushStep, stepCostSum_append, h1]
      have h2p : (pushStep es step rcpt risk2).run.budgetRemainingUSD =
          (pushStep es step rcpt risk2).run.budgetUSD -
            (pushStep es step rcpt risk2).run.totalCostUSD := by
        simp [pushStep]
      obtain ⟨g1, g2, g3, g4⟩ := ih (pushStep es step rcpt risk2) es' h1p h2p hok
      refine ⟨g1, g2, ?_, ?_⟩
      · rw [g3]; simp [pushStep]
      · rw [g4]; simp [pushStep]

/-- executeTool throws when the tool id is not in the registry. -/
theorem executeTool_not_found (registry : List PaidTool) (policy : RiskPolicy)
    (risk : RiskEngineState) (now : ℤ) (toolId : String) (outcome : FetchOutcome)
    (hfind : registry.find? (fun t => t.id == toolId) = none) :
    executeTool registry policy risk now toolId outcome =
      Except.error ("Tool not found: " ++ toolId) := by
  rw [executeTool, hfind]

/-- executeTool never throws when the tool id is in the registry. -/
theorem executeTool_found_ok (registry : List PaidTool) (policy : RiskPolicy)
    (risk : RiskEngineState) (now : ℤ) (toolId : String) (outcome : FetchOutcome)
    (tl : PaidTool)
    (hfind : registry.find? (fun t => t.id == toolId) = some tl) :
    ∃ out, executeTool registry policy risk now toolId outcome = Except.ok out := by
  rw [executeTool, hfind]
  by_cases happ : (RiskEngine.assess policy risk now ("tool:" ++ toolId) tl.priceUSD
      ⟨some tl.category, none, none, none⟩).approved = false
  · simp [happ]
  · cases outcome <;> simp [happ]

/-- A found, risk-approved tool whose payment call throws is recorded as a
failed zero-cost step with the engine state unchanged. -/
theorem executeTool_err_eq (registry : List PaidTool) (policy : RiskPolicy)
    (risk : RiskEngineState) (now : ℤ) (toolId : String) (m : String)
    (tool : PaidTool)
    (hfind : registry.find? (fun t => t.id == toolId) = some tool)
    (happ : (RiskEngine.assess policy risk now ("tool:" ++ toolId) tool.priceUSD
      ⟨some tool.category, none, none, none⟩).approved = true) :
    executeTool registry policy risk now toolId (FetchOutcome.err m) =
      Except.ok (failedExecStep toolId m, none, risk) := by
  rw [executeTool, hfind]
  simp [happ, failedExecStep]

/-- phaseExecute never changes the run status when it completes. -/
theorem phaseExecute_ok_status (registry : List PaidTool) (policy : RiskPolicy)
    (plan : List PlannedCall) :
    ∀ es es' : ExecState, phaseExecute registry policy es plan = Except.ok es' →
      es'.run.status = es.run.status := by
  induction plan with
  | nil =>
    intro es es' hok
    rw [phaseExecute] at hok
    cases hok
    rfl
  | cons c rest ih =>
    intro es es' hok
    cases hex : executeTool registry policy es.risk c.now c.tool c.outcome with
    | error msg =>
      rw [phaseExecute_cons_err registry policy es c rest msg hex] at hok
      exact absurd hok (by simp)
    | ok out =>
      obtain ⟨step, rcpt, risk2⟩ := out
      rw [phaseExecute_cons_ok registry policy es c rest step rcpt risk2 hex] at hok
      have := ih _ es' hok
      rw [this]
      simp [pushStep]

/-- C1: for every trace of spend events starting from a fresh engine, in
which recordAction is called with approved = true only for spends whose
assessment against the then-current state reported no violations at the
assessed cost, the cumulative spent total stays at or below the daily
limit after every recordAction call (every prefix of the trace). -/
theorem c1_spent_within_daily_limit (policy : RiskPolicy) (events : List SpendEvent)
    (hlim : 0 ≤ policy.dailyLimitUSD)
    (hassessed : EventsAssessed policy RiskEngine.initState events) :
    ∀ n : ℕ,
      (runEvents RiskEngine.initState (events.take n)).dailySpent ≤
        policy.dailyLimitUSD :=
  runEvents_spent_le policy events RiskEngine.initState
    (by simpa [RiskEngine.initState] using hlim) hassessed

/-- Witness for C1: two approved spends of one dollar each against the
default policy keep the cumulative spend within the daily limit. -/
theorem c1_spent_within_daily_limit_witness :
    (runEvents RiskEngine.initState
      ([⟨"a", 1, noMetadata, 100, 100, true⟩,
        ⟨"b", 1, noMetadata, 2000, 2000, true⟩].take 2)).dailySpent ≤
      defaultPolicy.dailyLimitUSD :=
  c1_spent_within_daily_limit defaultPolicy
    [⟨"a", 1, noMetadata, 100, 100, true⟩, ⟨"b", 1, noMetadata, 2000, 2000, true⟩]
    (by norm_num [defaultPolicy])
    ⟨fun _ => by
        norm_num [RiskEngine.assess, RiskEngine.assessViolations, RiskEngine.dailyHit,
          RiskEngine.perTxHit, RiskEngine.cooldownHit, RiskEngine.categoryHit,
          RiskEngine.tokenHit, RiskEngine.chainHit, RiskEngine.slippageHit,
          RiskEngine.initState, defaultPolicy, noMetadata],
      fun _ => by
        norm_num [applyEvent, RiskEngine.recordAction, RiskEngine.assess,
          RiskEngine.assessViolations, RiskEngine.dailyHit,
          RiskEngine.perTxHit, RiskEngine.cooldownHit, RiskEngine.categoryHit,
          RiskEngine.tokenHit, RiskEngine.chainHit, RiskEngine.slippageHit,
          RiskEngine.initState, defaultPolicy, noMetadata],
      trivial⟩ 2

/-- C2: the approved flag of an assessment is true exactly when its
violation list is empty; a zero-violation action above the auto-approve
ceiling is still approved with a reason starting "Requires approval: ",
a zero-violation action at or below the ceiling gets a reason starting
"Auto-approved: ", and any violation yields approved = false with a
reason starting "Blocked: ". -/
theorem c2_approved_iff_no_violations (policy : RiskPolicy) (st : RiskEngineState)
    (now : ℤ) (action : String) (cost : ℚ) (metadata : AssessMetadata) :
    ((RiskEngine.assess policy st now action cost metadata).approved = true ↔
      (RiskEngine.assess policy st now action cost metadata).policyViolations = []) ∧
    ((RiskEngine.assess policy st now action cost metadata).policyViolations = [] →
      cost > policy.maxAutoApproveUSD →
      (RiskEngine.assess policy st now action cost metadata).approved = true ∧
      ∃ t, (RiskEngine.assess policy st now action cost metadata).reason =
        "Requires approval: " ++ t) ∧
    ((RiskEngine.assess policy st now action cost metadata).policyViolations = [] →
      cost ≤ policy.maxAutoApproveUSD →
      ∃ t, (RiskEngine.assess policy st now action cost metadata).reason =
        "Auto-approved: " ++ t) ∧
    ((RiskEngine.assess policy st now action cost metadata).policyViolations ≠ [] →
      (RiskEngine.assess policy st now action cost metadata).approved = false ∧
      ∃ t, (RiskEngine.assess policy st now action cost metadata).reason =
        "Blocked: " ++ t) := by
  simp only [RiskEngine.assess]
  set V := RiskEngine.assessViolations policy st now cost metadata with hV
  clear_value V
  rcases le_or_lt cost policy.maxAutoApproveUSD with h | h <;>
    cases V <;>
    simp [h, not_lt.mpr, not_le.mpr, List.isEmpty_iff]

/-- Witness for C2: with the default policy a three-dollar action has no
violations, exceeds the one-dollar auto-approve ceiling, and is approved
with a reason starting "Requires approval: ". -/
theorem c2_approved_iff_no_violations_witness :
    (RiskEngine.assess defaultPolicy RiskEngine.initState 0 "t" 3 noMetadata).approved
        = true ∧
    ∃ t, (RiskEngine.assess defaultPolicy RiskEngine.initState 0 "t" 3 noMetadata).reason =
      "Requires approval: " ++ t :=
  (c2_approved_iff_no_violations defaultPolicy RiskEngine.initState 0 "t" 3 noMetadata).2.1
    (by norm_num [RiskEngine.assess, RiskEngine.assessViolations, RiskEngine.dailyHit,
      RiskEngine.perTxHit, RiskEngine.cooldownHit, RiskEngine.categoryHit,
      RiskEngine.tokenHit, RiskEngine.chainHit, RiskEngine.slippageHit,
      RiskEngine.initState, defaultPolicy, noMetadata])
    (by norm_num [defaultPolicy])

/-- Counterexample to C3: with the default policy, spent = 48 and cost = 6
violate both the daily limit (48 + 6 > 50) and the per-transaction limit
(6 > 5), yet the returned risk level is high, not critical: the
per-transaction check overwrote the critical tier. -/
theorem c3_counterexample_critical_downgraded :
    (48 : ℚ) + 6 > defaultPolicy.dailyLimitUSD ∧
    (6 : ℚ) > defaultPolicy.perTransactionLimitUSD ∧
    (RiskEngine.assess defaultPolicy ⟨48, 0, []⟩ 0 "trade" 6 noMetadata).riskLevel =
      RiskLevel.high ∧
    RiskLevel.high ≠ RiskLevel.critical := by
  refine ⟨by norm_num [defaultPolicy], by norm_num [defaultPolicy], ?_, by simp⟩
  norm_num [RiskEngine.assess, RiskEngine.assessRiskLevel, RiskEngine.dailyHit,
    RiskEngine.perTxHit, RiskEngine.cooldownHit, RiskEngine.categoryHit,
    RiskEngine.tokenHit, RiskEngine.chainHit, RiskEngine.slippageHit,
    defaultPolicy, noMetadata]

/-- C3 as amended: the per-transaction-limit check assigns the high tier
unconditionally, overwriting an earlier critical tier; hence whenever the
estimated cost exceeds the per-action limit the returned risk level is
high, even when the daily limit is also exceeded. -/
theorem c3_perTx_forces_high (policy : RiskPolicy) (st : RiskEngineState) (now : ℤ)
    (action : String) (cost : ℚ) (metadata : AssessMetadata)
    (h : cost > policy.perTransactionLimitUSD) :
    (RiskEngine.assess policy st now action cost metadata).riskLevel = RiskLevel.high := by
  show RiskEngine.assessRiskLevel policy st now cost metadata = RiskLevel.high
  simp [RiskEngine.assessRiskLevel, RiskEngine.perTxHit, h]

/-- Witness for the amended C3: a six-dollar action under the default
policy exceeds the per-transaction limit and is assessed at the high
tier. -/
theorem c3_perTx_forces_high_witness :
    (RiskEngine.assess defaultPolicy RiskEngine.initState 0 "t" 6 noMetadata).riskLevel =
      RiskLevel.high :=
  c3_perTx_forces_high defaultPolicy RiskEngine.initState 0 "t" 6 noMetadata
    (by norm_num [defaultPolicy])

/-- Counterexample to C4: a single risk-rejected step (its six-dollar tool
price exceeds the per-transaction limit, so no payment happens and no
receipt is settled) still has its cost subtracted from the remaining
budget: the remaining budget drops from 10 to 4 while the settled receipt
total is 0, so budgetRemainingUSD differs from budgetUSD minus the settled
receipt sum. -/
theorem c4_counterexample_rejected_step_cost_subtracted :
    ((phaseExecute
        [{ id := "pricey", name := "Pricey", endpoint := "/api/pricey",
           priceUSD := 6, category := "market-data" }]
        defaultPolicy
        ⟨⟨RunStatus.running, [], 0, 10, 10⟩, [], RiskEngine.initState⟩
        [⟨"pricey", FetchOutcome.ok none none, 0⟩]).map
      (fun es => (es.run.budgetRemainingUSD, settledSum es.receipts, es.run.budgetUSD))) =
      Except.ok ((4 : ℚ), (0 : ℚ), (10 : ℚ)) ∧
    (4 : ℚ) ≠ 10 - 0 := by
  constructor
  · norm_num [phaseExecute, executeTool, pushStep, settledSum, RiskEngine.assess,
      RiskEngine.assessViolations, RiskEngine.dailyHit, RiskEngine.perTxHit,
      RiskEngine.cooldownHit, RiskEngine.categoryHit, RiskEngine.tokenHit,
      RiskEngine.chainHit, RiskEngine.slippageHit, RiskEngine.initState,
      defaultPolicy, List.find?, Except.map]
  · norm_num

/-- C4 as amended: after every execute-phase step, budgetRemainingUSD
equals budgetUSD minus the sum of the costUSD fields of the recorded
steps, where a risk-rejected step carries the listed tool price (so its
cost is subtracted) and a thrown payment call carries cost 0; at the
completed-run finalization, budgetRemainingUSD equals budgetUSD minus the
sum of all recorded receipt amounts, settled or failed. -/
theorem c4_budget_tracks_recorded_step_costs (registry : List PaidTool)
    (policy : RiskPolicy) (plan : List PlannedCall) (es es' : ExecState)
    (h1 : es.run.totalCostUSD = stepCostSum es.run.steps)
    (h2 : es.run.budgetRemainingUSD = es.run.budgetUSD - es.run.totalCostUSD)
    (hok : phaseExecute registry policy es plan = Except.ok es') :
    es'.run.budgetRemainingUSD = es'.run.budgetUSD - stepCostSum es'.run.steps ∧
    es'.run.budgetUSD = es.run.budgetUSD ∧
    (finalizeCompleted es').budgetRemainingUSD =
      es'.run.budgetUSD - receiptSum es'.receipts := by
  obtain ⟨g1, g2, g3, _⟩ := phaseExecute_invariant registry policy plan es es' h1 h2 hok
  refine ⟨?_, g3, rfl⟩
  rw [g2, g1]

/-- Witness for the amended C4: an empty plan from a fresh ten-dollar run
satisfies the bookkeeping equations. -/
theorem c4_budget_tracks_recorded_step_costs_witness :
    (⟨⟨RunStatus.running, [], 0, 10, 10⟩, [], RiskEngine.initState⟩ :
        ExecState).run.budgetRemainingUSD =
      (⟨⟨RunStatus.running, [], 0, 10, 10⟩, [], RiskEngine.initState⟩ :
        ExecState).run.budgetUSD -
        stepCostSum (⟨⟨RunStatus.running, [], 0, 10, 10⟩, [], RiskEngine.initState⟩ :
          ExecState).run.steps ∧
    (⟨⟨RunStatus.running, [], 0, 10, 10⟩, [], RiskEngine.initState⟩ :
        ExecState).run.budgetUSD =
      (⟨⟨RunStatus.running, [], 0, 10, 10⟩, [], RiskEngine.initState⟩ :
        ExecState).run.budgetUSD ∧
    (finalizeCompleted
        ⟨⟨RunStatus.running, [], 0, 10, 10⟩, [], RiskEngine.initState⟩).budgetRemainingUSD =
      (⟨⟨RunStatus.running, [], 0, 10, 10⟩, [], RiskEngine.initState⟩ :
          ExecState).run.budgetUSD -
        receiptSum (⟨⟨RunStatus.running, [], 0, 10, 10⟩, [], RiskEngine.initState⟩ :
          ExecState).receipts :=
  c4_budget_tracks_recorded_step_costs [] defaultPolicy []
    ⟨⟨RunStatus.running, [], 0, 10, 10⟩, [], RiskEngine.initState⟩
    ⟨⟨RunStatus.running, [], 0, 10, 10⟩, [], RiskEngine.initState⟩
    (by norm_num [stepCostSum])
    (by norm_num)
    (by rw [phaseExecute])

/-- C5: a three-step plan whose second payment call throws still records
all three steps: the second step is marked failed with the error message
and cost 0, the run status is untouched by the execute phase, and the run
total adds only the costs of steps one and three; no receipt is logged
for step two. -/
theorem c5_failed_step_isolated (registry : List PaidTool) (policy : RiskPolicy)
    (run0 : RunState) (receipts0 : List PaymentReceipt) (risk0 : RiskEngineState)
    (t1 t2 t3 : String) (o1 o3 : FetchOutcome) (m : String) (n1 n2 n3 : ℤ)
    (tool2 : PaidTool)
    (s1 s3 : WorkflowStep) (r1 r3 : Option PaymentReceipt) (risk1 risk3 : RiskEngineState)
    (hstep1 : executeTool registry policy risk0 n1 t1 o1 = Except.ok (s1, r1, risk1))
    (hfind2 : registry.find? (fun t => t.id == t2) = some tool2)
    (happ2 : (RiskEngine.assess policy risk1 n2 ("tool:" ++ t2) tool2.priceUSD
      ⟨some tool2.category, none, none, none⟩).approved = true)
    (hstep3 : executeTool registry policy risk1 n3 t3 o3 = Except.ok (s3, r3, risk3)) :
    ∃ es' : ExecState,
      phaseExecute registry policy ⟨run0, receipts0, risk0⟩
        [⟨t1, o1, n1⟩, ⟨t2, FetchOutcome.err m, n2⟩, ⟨t3, o3, n3⟩] = Except.ok es' ∧
      ∃ s2 : WorkflowStep,
        es'.run.steps = run0.steps ++ [s1, s2, s3] ∧
        s2.status = StepStatus.failed ∧
        s2.error = some m ∧
        s2.costUSD = some 0 ∧
        es'.run.status = run0.status ∧
        es'.run.totalCostUSD = run0.totalCostUSD + s1.costUSD.getD 0 + s3.costUSD.getD 0 ∧
        es'.receipts = receipts0 ++ r1.toList ++ r3.toList := by
  have hs2 := executeTool_err_eq registry policy risk1 n2 t2 m tool2 hfind2 happ2
  have e1 := phaseExecute_cons_ok registry policy ⟨run0, receipts0, risk0⟩
    ⟨t1, o1, n1⟩ [⟨t2, FetchOutcome.err m, n2⟩, ⟨t3, o3, n3⟩] s1 r1 risk1 hstep1
  have e2 := phaseExecute_cons_ok registry policy
    (pushStep ⟨run0, receipts0, risk0⟩ s1 r1 risk1)
    ⟨t2, FetchOutcome.err m, n2⟩ [⟨t3, o3, n3⟩]
    (failedExecStep t2 m) none risk1 (by simpa [pushStep] using hs2)
  have e3 := phaseExecute_cons_ok registry policy
    (pushStep (pushStep ⟨run0, receipts0, risk0⟩ s1 r1 risk1) (failedExecStep t2 m) none risk1)
    ⟨t3, o3, n3⟩ [] s3 r3 risk3 (by simpa [pushStep] using hstep3)
  refine ⟨_, by rw [e1, e2, e3, phaseExecute], ?_⟩
  refine ⟨failedExecStep t2 m, ?_, rfl, rfl, rfl, ?_, ?_, ?_⟩
  · simp [pushStep]
  · simp [pushStep]
  · simp [pushStep, failedExecStep]
  · simp [pushStep]

/-- Witness for C5: in the demo registry, a three-step plan over tools a,
b, c in which every payment call throws (step two with message "boom")
records three failed steps, keeps the run status, and adds no cost. -/
theorem c5_failed_step_isolated_witness :
    ∃ es' : ExecState,
      phaseExecute demoRegistry defaultPolicy ⟨demoRun, [], RiskEngine.initState⟩
        [⟨"a", FetchOutcome.err "x", 0⟩, ⟨"b", FetchOutcome.err "boom", 1⟩,
         ⟨"c", FetchOutcome.err "y", 2⟩] = Except.ok es' ∧
      ∃ s2 : WorkflowStep,
        es'.run.steps = demoRun.steps ++
          [failedExecStep "a" "x", s2, failedExecStep "c" "y"] ∧
        s2.status = StepStatus.failed ∧
        s2.error = some "boom" ∧
        s2.costUSD = some 0 ∧
        es'.run.status = demoRun.status ∧
        es'.run.totalCostUSD = demoRun.totalCostUSD +
          (failedExecStep "a" "x").costUSD.getD 0 +
          (failedExecStep "c" "y").costUSD.getD 0 ∧
        es'.receipts = [] ++ (none : Option PaymentReceipt).toList ++
          (none : Option PaymentReceipt).toList :=
  c5_failed_step_isolated demoRegistry defaultPolicy demoRun [] RiskEngine.initState
    "a" "b" "c" (FetchOutcome.err "x") (FetchOutcome.err "y") "boom" 0 1 2
    ⟨"b", "B", "/api/b", 1, "market-data"⟩
    (failedExecStep "a" "x") (failedExecStep "c" "y") none none
    RiskEngine.initState RiskEngine.initState
    (executeTool_err_eq demoRegistry defaultPolicy RiskEngine.initState 0 "a" "x"
      ⟨"a", "A", "/api/a", 1, "market-data"⟩
      (by simp [demoRegistry, List.find?])
      (by norm_num [RiskEngine.assess, RiskEngine.assessViolations, RiskEngine.dailyHit,
        RiskEngine.perTxHit, RiskEngine.cooldownHit, RiskEngine.categoryHit,
        RiskEngine.tokenHit, RiskEngine.chainHit, RiskEngine.slippageHit,
        RiskEngine.initState, defaultPolicy]))
    (by simp [demoRegistry, List.find?])
    (by norm_num [RiskEngine.assess, RiskEngine.assessViolations, RiskEngine.dailyHit,
      RiskEngine.perTxHit, RiskEngine.cooldownHit, RiskEngine.categoryHit,
      RiskEngine.tokenHit, RiskEngine.chainHit, RiskEngine.slippageHit,
      RiskEngine.initState, defaultPolicy])
    (executeTool_err_eq demoRegistry defaultPolicy RiskEngine.initState 2 "c" "y"
      ⟨"c", "C", "/api/c", 1, "market-data"⟩
      (by simp [demoRegistry, List.find?])
      (by norm_num [RiskEngine.assess, RiskEngine.assessViolations, RiskEngine.dailyHit,
        RiskEngine.perTxHit, RiskEngine.cooldownHit, RiskEngine.categoryHit,
        RiskEngine.tokenHit, RiskEngine.chainHit, RiskEngine.slippageHit,
        RiskEngine.initState, defaultPolicy]))

/-- Counterexample to C6: two assess calls with identical policy, spent
total, lastActionTimestamp, cost and metadata but different clock readings
return different assessments: at time 500 the cooldown check fires and
approval is denied, at time 5000 it does not fire and the same action is
approved.  The current clock is a hidden input of assess. -/
theorem c6_counterexample_clock_dependence :
    (RiskEngine.assess defaultPolicy ⟨0, 1, []⟩ 500 "a" 1 noMetadata).approved = false ∧
    (RiskEngine.assess defaultPolicy ⟨0, 1, []⟩ 5000 "a" 1 noMetadata).approved = true ∧
    RiskEngine.assess defaultPolicy ⟨0, 1, []⟩ 500 "a" 1 noMetadata ≠
      RiskEngine.assess defaultPolicy ⟨0, 1, []⟩ 5000 "a" 1 noMetadata := by
  refine ⟨?_, ?_, ?_⟩
  · norm_num [RiskEngine.assess, RiskEngine.assessViolations, RiskEngine.dailyHit,
      RiskEngine.perTxHit, RiskEngine.cooldownHit, RiskEngine.categoryHit,
      RiskEngine.tokenHit, RiskEngine.chainHit, RiskEngine.slippageHit,
      defaultPolicy, noMetadata]
  · norm_num [RiskEngine.assess, RiskEngine.assessViolations, RiskEngine.dailyHit,
      RiskEngine.perTxHit, RiskEngine.cooldownHit, RiskEngine.categoryHit,
      RiskEngine.tokenHit, RiskEngine.chainHit, RiskEngine.slippageHit,
      defaultPolicy, noMetadata]
  · intro heq
    have happ : (RiskEngine.assess defaultPolicy ⟨0, 1, []⟩ 500 "a" 1 noMetadata).approved =
        (RiskEngine.assess defaultPolicy ⟨0, 1, []⟩ 5000 "a" 1 noMetadata).approved := by
      rw [heq]
    rw [(by norm_num [RiskEngine.assess, RiskEngine.assessViolations, RiskEngine.dailyHit,
      RiskEngine.perTxHit, RiskEngine.cooldownHit, RiskEngine.categoryHit,
      RiskEngine.tokenHit, RiskEngine.chainHit, RiskEngine.slippageHit,
      defaultPolicy, noMetadata] :
        (RiskEngine.assess defaultPolicy ⟨0, 1, []⟩ 500 "a" 1 noMetadata).approved =
          false)] at happ
    rw [(by norm_num [RiskEngine.assess, RiskEngine.assessViolations, RiskEngine.dailyHit,
      RiskEngine.perTxHit, RiskEngine.cooldownHit, RiskEngine.categoryHit,
      RiskEngine.tokenHit, RiskEngine.chainHit, RiskEngine.slippageHit,
      defaultPolicy, noMetadata] :
        (RiskEngine.assess defaultPolicy ⟨0, 1, []⟩ 5000 "a" 1 noMetadata).approved =
          true)] at happ
    exact Bool.false_ne_true happ

/-- C6 as amended: assess is a pure function of the five stated inputs
together with the current clock reading: it performs no mutation (it is a
plain function of the state in this embedding), the clock enters only
through the elapsed time since the last action, and when no prior action
is recorded (lastActionTimestamp = 0) the result is clock-independent. -/
theorem c6_assess_function_of_state_and_clock (policy : RiskPolicy)
    (st : RiskEngineState) (action : String) (cost : ℚ) (metadata : AssessMetadata)
    (now now2 : ℤ) :
    (now - st.lastActionTimestamp = now2 - st.lastActionTimestamp →
      RiskEngine.assess policy st now action cost metadata =
        RiskEngine.assess policy st now2 action cost metadata) ∧
    (st.lastActionTimestamp = 0 →
      RiskEngine.assess policy st now action cost metadata =
        RiskEngine.assess policy st now2 action cost metadata) := by
  constructor
  · intro h
    simp only [RiskEngine.assess, RiskEngine.assessViolations, RiskEngine.cooldownHit,
      RiskEngine.assessRiskLevel, h]
  · intro h
    simp only [RiskEngine.assess, RiskEngine.assessViolations, RiskEngine.cooldownHit,
      RiskEngine.assessRiskLevel, h]
    norm_num

/-- Witness for the amended C6: with no prior action recorded, assessing at
clock 5 and at clock 7 gives the same assessment. -/
theorem c6_assess_function_of_state_and_clock_witness :
    RiskEngine.assess defaultPolicy RiskEngine.initState 5 "a" 1 noMetadata =
      RiskEngine.assess defaultPolicy RiskEngine.initState 7 "a" 1 noMetadata :=
  (c6_assess_function_of_state_and_clock defaultPolicy RiskEngine.initState
    "a" 1 noMetadata 5 7).2 rfl

/-- C7: for every non-empty signal list with confidences at least 0, the
composite score is the confidence-weighted average of the scores with
source weights news 0.35, fear-greed-index 0.30, onchain 0.35 and 0.33
for any other source; the aggregate confidence is the weight total over
the signal count; and the label is bullish exactly above 0.25, bearish
exactly below -0.25, and neutral otherwise. -/
theorem c7_composite_aggregation (signals : List SentimentSignal) (hne : signals ≠ [])
    (hconf : ∀ s ∈ signals, 0 ≤ s.confidence) :
    compositeScore signals =
      ((signals.map fun s => s.score * sourceWeight s.source * s.confidence).sum) /
        ((signals.map fun s => sourceWeight s.source * s.confidence).sum) ∧
    compositeConfidence signals =
      ((signals.map fun s => sourceWeight s.source * s.confidence).sum) /
        (signals.length : ℚ) ∧
    sourceWeight "news" = 35/100 ∧
    sourceWeight "fear-greed-index" = 30/100 ∧
    sourceWeight "onchain" = 35/100 ∧
    (∀ src : String, src ≠ "news" → src ≠ "fear-greed-index" → src ≠ "onchain" →
      sourceWeight src = 33/100) ∧
    (compositeLabel signals = SentimentLabel.bullish ↔ compositeScore signals > 1/4) ∧
    (compositeLabel signals = SentimentLabel.bearish ↔ compositeScore signals < -(1/4)) ∧
    (compositeLabel signals = SentimentLabel.neutral ↔
      ¬ compositeScore signals > 1/4 ∧ ¬ compositeScore signals < -(1/4)) := by
  have h14 : (mkRat 25 100 : ℚ) = 1/4 := by rw [Rat.mkRat_eq_div]; norm_num
  have hnn := totalWeight_nonneg signals hconf
  have hlb : compositeLabel signals =
      if compositeScore signals > 1/4 then SentimentLabel.bullish
      else if compositeScore signals < -(1/4) then SentimentLabel.bearish
      else SentimentLabel.neutral := by
    simp only [compositeLabel, h14]
  refine ⟨?_, ?_, ?_, ?_, ?_, ?_, ?_, ?_, ?_⟩
  · by_cases h : totalWeight signals > 0
    · rw [compositeScore, if_pos h, totalWeight_eq_sum, weightedSum_eq_sum]
    · have h0 : totalWeight signals = 0 := le_antisymm (not_lt.mp h) hnn
      rw [compositeScore, if_neg h, ← totalWeight_eq_sum, h0, div_zero]
  · by_cases h : totalWeight signals > 0
    · rw [compositeConfidence, if_pos h, totalWeight_eq_sum]
    · have h0 : totalWeight signals = 0 := le_antisymm (not_lt.mp h) hnn
      rw [compositeConfidence, if_neg h, ← totalWeight_eq_sum, h0, zero_div]
  · rw [sourceWeight, if_pos rfl, Rat.mkRat_eq_div]; norm_num
  · rw [sourceWeight, if_neg (by decide), if_pos rfl, Rat.mkRat_eq_div]; norm_num
  · rw [sourceWeight, if_neg (by decide), if_neg (by decide), if_pos rfl, Rat.mkRat_eq_div]
    norm_num
  · intro src h1 h2 h3
    rw [sourceWeight, if_neg h1, if_neg h2, if_neg h3, Rat.mkRat_eq_div]; norm_num
  · rw [hlb]
    by_cases hb : compositeScore signals > 1/4
    · rw [if_pos hb]; exact iff_of_true rfl hb
    · rw [if_neg hb]
      by_cases hbr : compositeScore signals < -(1/4)
      · rw [if_pos hbr]; exact iff_of_false (by simp) hb
      · rw [if_neg hbr]; exact iff_of_false (by simp) hb
  · rw [hlb]
    by_cases hb : compositeScore signals > 1/4
    · rw [if_pos hb]
      refine iff_of_false (by simp) (fun hlt => ?_)
      rw [gt_iff_lt] at hb
      linarith
    · rw [if_neg hb]
      by_cases hbr : compositeScore signals < -(1/4)
      · rw [if_pos hbr]; exact iff_of_true rfl hbr
      · rw [if_neg hbr]; exact iff_of_false (by simp) hbr
  · rw [hlb]
    by_cases hb : compositeScore signals > 1/4
    · rw [if_pos hb]; exact iff_of_false (by simp) (fun h => h.1 hb)
    · rw [if_neg hb]
      by_cases hbr : compositeScore signals < -(1/4)
      · rw [if_pos hbr]; exact iff_of_false (by simp) (fun h => h.2 hbr)
      · rw [if_neg hbr]; exact iff_of_true rfl ⟨hb, hbr⟩

/-- C8: aggregating the empty signal list yields composite score 0,
aggregate confidence 0 and the neutral label; the aggregation is a total
function and the zero-total-weight branch never divides. -/
theorem c8_empty_signals_neutral :
    compositeScore ([] : List SentimentSignal) = 0 ∧
    compositeConfidence ([] : List SentimentSignal) = 0 ∧
    compositeLabel ([] : List SentimentSignal) = SentimentLabel.neutral := by
  have h0 : totalWeight ([] : List SentimentSignal) = 0 := by simp [totalWeight]
  have hs : compositeScore ([] : List SentimentSignal) = 0 := by
    rw [compositeScore, if_neg (by rw [h0]; exact lt_irrefl 0)]
  have h14 : (mkRat 25 100 : ℚ) = 1/4 := by rw [Rat.mkRat_eq_div]; norm_num
  refine ⟨hs, ?_, ?_⟩
  · rw [compositeConfidence, if_neg (by rw [h0]; exact lt_irrefl 0)]
  · rw [compositeLabel, if_neg (by rw [hs, h14]; norm_num),
      if_neg (by rw [hs, h14]; norm_num)]

/-- Witness for C7: the demo signal list is non-empty with nonnegative
confidences, so the aggregation formulas and label thresholds hold on it. -/
theorem c7_composite_aggregation_witness :
    compositeScore demoSignals =
      ((demoSignals.map fun s => s.score * sourceWeight s.source * s.confidence).sum) /
        ((demoSignals.map fun s => sourceWeight s.source * s.confidence).sum) ∧
    compositeConfidence demoSignals =
      ((demoSignals.map fun s => sourceWeight s.source * s.confidence).sum) /
        (demoSignals.length : ℚ) ∧
    sourceWeight "news" = 35/100 ∧
    sourceWeight "fear-greed-index" = 30/100 ∧
    sourceWeight "onchain" = 35/100 ∧
    (∀ src : String, src ≠ "news" → src ≠ "fear-greed-index" → src ≠ "onchain" →
      sourceWeight src = 33/100) ∧
    (compositeLabel demoSignals = SentimentLabel.bullish ↔
      compositeScore demoSignals > 1/4) ∧
    (compositeLabel demoSignals = SentimentLabel.bearish ↔
      compositeScore demoSignals < -(1/4)) ∧
    (compositeLabel demoSignals = SentimentLabel.neutral ↔
      ¬ compositeScore demoSignals > 1/4 ∧ ¬ compositeScore demoSignals < -(1/4)) :=
  c7_composite_aggregation demoSignals (by simp [demoSignals])
    (by
      intro s hs
      simp only [demoSignals, List.mem_cons, List.mem_singleton] at hs
      rcases hs with rfl | rfl | h
      · norm_num
      · norm_num
      · simp at h)

/-- C9: when the planner response fails to parse, the plan phase degrades
to an empty plan with estimated cost 0 and the raw response text as the
rationale, the recorded plan step is still marked success (the phase does
not raise and the run proceeds), and the downstream cost estimate is 0. -/
theorem c9_plan_parse_fallback (parse : String → Option Plan)
    (registry : List PaidTool) (response : String)
    (hfail : parse response = none) :
    (phasePlan parse response).1 =
      { plan := [], estimatedCostUSD := 0, reasoning := response } ∧
    (phasePlan parse response).2.status = StepStatus.success ∧
    (phasePlan parse response).2.reasoning = some response ∧
    planEstimatedCost registry (phasePlan parse response).1 = 0 := by
  refine ⟨?_, ?_, ?_, ?_⟩ <;>
    simp [phasePlan, parsePlanResponse, hfail, planEstimatedCost, estimateWorkflowCost]

/-- Witness for C9: a parser that rejects everything degrades the response
"not json" to the empty plan with that text as rationale. -/
theorem c9_plan_parse_fallback_witness :
    (phasePlan (fun _ => (none : Option Plan)) "not json").1 =
      { plan := [], estimatedCostUSD := 0, reasoning := "not json" } ∧
    (phasePlan (fun _ => (none : Option Plan)) "not json").2.status =
      StepStatus.success ∧
    (phasePlan (fun _ => (none : Option Plan)) "not json").2.reasoning =
      some "not json" ∧
    planEstimatedCost demoRegistry
      (phasePlan (fun _ => (none : Option Plan)) "not json").1 = 0 :=
  c9_plan_parse_fallback (fun _ => none) demoRegistry "not json" rfl

/-- C10: a plan containing a tool id absent from the registry makes
executeTool throw "Tool not found", the execute phase does not catch the
exception, and the run-level catch marks the whole run failed; by
contrast, when every planned tool id is in the registry the phase returns
normally (risk rejections and payment failures are recorded as failed
steps inside it) and the run status is untouched. -/
theorem c10_unknown_tool_fails_run (registry : List PaidTool) (policy : RiskPolicy)
    (es : ExecState) (plan : List PlannedCall) :
    ((∃ call ∈ plan, registry.find? (fun t => t.id == call.tool) = none) →
      ∃ msg es2, phaseExecute registry policy es plan = Except.error (msg, es2) ∧
        (∃ t, msg = "Tool not found: " ++ t) ∧
        executePhaseOutcome registry policy es plan =
          { es2.run with status := RunStatus.failed } ∧
        (executePhaseOutcome registry policy es plan).status = RunStatus.failed) ∧
    ((∀ call ∈ plan, ∃ tl, registry.find? (fun t => t.id == call.tool) = some tl) →
      ∃ es', phaseExecute registry policy es plan = Except.ok es' ∧
        executePhaseOutcome registry policy es plan = es'.run ∧
        es'.run.status = es.run.status) := by
  constructor
  · intro hmiss
    induction plan generalizing es with
    | nil => simp at hmiss
    | cons c rest ih =>
      cases hfind : registry.find? (fun t => t.id == c.tool) with
      | none =>
        refine ⟨"Tool not found: " ++ c.tool, es, ?_, ⟨c.tool, rfl⟩, ?_, ?_⟩
        · exact phaseExecute_cons_err registry policy es c rest _
            (executeTool_not_found registry policy es.risk c.now c.tool c.outcome hfind)
        · rw [executePhaseOutcome, phaseExecute_cons_err registry policy es c rest _
            (executeTool_not_found registry policy es.risk c.now c.tool c.outcome hfind)]
        · rw [executePhaseOutcome, phaseExecute_cons_err registry policy es c rest _
            (executeTool_not_found registry policy es.risk c.now c.tool c.outcome hfind)]
      | some tl =>
        have hrest : ∃ call ∈ rest, registry.find? (fun t => t.id == call.tool) = none := by
          rcases hmiss with ⟨call, hmem, hnone⟩
          rcases List.mem_cons.mp hmem with rfl | hmem2
          · rw [hfind] at hnone; cases hnone
          · exact ⟨call, hmem2, hnone⟩
        obtain ⟨⟨step, rcpt, risk2⟩, hok⟩ :=
          executeTool_found_ok registry policy es.risk c.now c.tool c.outcome tl hfind
        have hcons := phaseExecute_cons_ok registry policy es c rest step rcpt risk2 hok
        obtain ⟨msg, es2, g1, g2, g3, g4⟩ := ih (pushStep es step rcpt risk2) hrest
        refine ⟨msg, es2, ?_, g2, ?_, ?_⟩
        · rw [hcons]; exact g1
        · rw [executePhaseOutcome, hcons, g1]
        · rw [executePhaseOutcome, hcons, g1]
  · intro hall
    induction plan generalizing es with
    | nil =>
      refine ⟨es, ?_, ?_, rfl⟩
      · rw [phaseExecute]
      · rw [executePhaseOutcome, phaseExecute]
    | cons c rest ih =>
      obtain ⟨tl, hfind⟩ := hall c (List.mem_cons_self c rest)
      obtain ⟨⟨step, rcpt, risk2⟩, hok⟩ :=
        executeTool_found_ok registry policy es.risk c.now c.tool c.outcome tl hfind
      have hcons := phaseExecute_cons_ok registry policy es c rest step rcpt risk2 hok
      have hallrest : ∀ call ∈ rest, ∃ tl2,
          registry.find? (fun t => t.id == call.tool) = some tl2 :=
        fun call hmem => hall call (List.mem_cons_of_mem c hmem)
      obtain ⟨es', g1, g2, g3⟩ := ih (pushStep es step rcpt risk2) hallrest
      refine ⟨es', ?_, ?_, ?_⟩
      · rw [hcons]; exact g1
      · rw [executePhaseOutcome, hcons, g1]
      · rw [g3]; simp [pushStep]

/-- Witness for C10: a one-step plan naming the absent tool "ghost" against
an empty registry makes the run fail with a "Tool not found" message. -/
theorem c10_unknown_tool_fails_run_witness :
    ∃ msg es2,
      phaseExecute [] defaultPolicy ⟨demoRun, [], RiskEngine.initState⟩
        [⟨"ghost", FetchOutcome.ok none none, 0⟩] = Except.error (msg, es2) ∧
      (∃ t, msg = "Tool not found: " ++ t) ∧
      executePhaseOutcome [] defaultPolicy ⟨demoRun, [], RiskEngine.initState⟩
        [⟨"ghost", FetchOutcome.ok none none, 0⟩] =
        { es2.run with status := RunStatus.failed } ∧
      (executePhaseOutcome [] defaultPolicy ⟨demoRun, [], RiskEngine.initState⟩
        [⟨"ghost", FetchOutcome.ok none none, 0⟩]).status = RunStatus.failed :=
  (c10_unknown_tool_fails_run [] defaultPolicy ⟨demoRun, [], RiskEngine.initState⟩
    [⟨"ghost", FetchOutcome.ok none none, 0⟩]).1
    ⟨⟨"ghost", FetchOutcome.ok none none, 0⟩, List.mem_singleton.mpr rfl, rfl⟩

end Aria
